import Mathlib

/-!
Verification of the task/job lifecycle engine of the screenshot service.

The definitions below are a shallow embedding of the TypeScript source:

* `src/types/screenshot.ts` (the variant with `startTaskSchema`, also present as
  `src/unnamed/part_001`): the `ScreenshotJob` / `ScreenshotTask` data model and
  the Zod schema bounds for `waitMs`.
* `src/lib/process-task.ts`: `processScreenshotTask` (the Task Runner), its job
  loop, the result-merge step, and the final status reconciliation; and the
  `Math.min(initialWaitMs || 0, 5000)` cap in `processSingleJob`.
* `src/pages/api/start-task.ts`: the Submission Builder (deduplication and
  cross-product job generation).
* `src/pages/api/cancel-task.ts`: the cancellation write.

Store interaction model: the Task Store holds one record per task id; the
Runner's reads and writes of that record are the suspension points at which a
single concurrent cancellation request may be interleaved.  `RunEnv.cancelPoint`
says before which of the Runner's store operations (numbered from 0) the
cancellation's read-modify-write fires; the capture backend (puppeteer, in
`processSingleJob`) is abstracted as the oracle `RunEnv.capture` giving the
`Partial<ScreenshotJob>` outcome of each job index.
-/

/-- Job status, from `ScreenshotStatus` in src/types/screenshot.ts. -/
inductive JobStatus
  | pending
  | processing
  | completed
  | error
deriving DecidableEq, Repr

/-- Task status, from `TaskStatus` in src/types/screenshot.ts. -/
inductive TaskStatus
  | pending
  | processing
  | completed
  | error
  | partially_completed
  | cancelling
  | cancelled
deriving DecidableEq, Repr

/-- Screenshot type of one job, `'viewport' | 'fullPage'`. -/
inductive ScreenshotType
  | viewport
  | fullPage
deriving DecidableEq, Repr

/-- Requested screenshot type of a submission, `'viewport' | 'fullPage' | 'both'`. -/
inductive RequestedScreenshotType
  | viewport
  | fullPage
  | both
deriving DecidableEq, Repr

/-- One capture job, from `ScreenshotJob` in src/types/screenshot.ts. -/
structure ScreenshotJob where
  id : String
  url : String
  dimension : String
  screenshotType : ScreenshotType
  status : JobStatus
  waitMs : Option Nat
  imageUrl : Option String
  message : Option String
deriving DecidableEq, Repr

/-- One submitted task, from `ScreenshotTask` in src/types/screenshot.ts
(`zipPath` is omitted: it is only written by the download endpoint). -/
structure ScreenshotTask where
  taskId : String
  status : TaskStatus
  jobs : List ScreenshotJob
  createdAt : Nat
  taskSpecificDir : String
  error : Option String
deriving DecidableEq, Repr

/-- The `Partial<ScreenshotJob>` value returned by `processSingleJob`
(src/lib/process-task.ts): each field is present or absent. -/
structure JobResult where
  status : Option JobStatus
  imageUrl : Option String
  message : Option String
deriving DecidableEq, Repr

/-- JavaScript `a || b` on an optional string: an absent or empty string falls
back to the default.  Used for the `finalError = finalError || '...'` defaults
in src/lib/process-task.ts. -/
def jsOr (o : Option String) (d : String) : String :=
  match o with
  | some s => if s = "" then d else s
  | none => d

/-- Merge of a job outcome into the freshly reloaded job record, from
`task.jobs[jobIndex] = { ...task.jobs[jobIndex], ...result, status: result.status || 'error' }`
(src/lib/process-task.ts line 319): fields present in the result overwrite, and
the status is explicitly set, defaulting to `error` when the result carries
none. -/
def mergeJobResult (job : ScreenshotJob) (r : JobResult) : ScreenshotJob :=
  { job with
    status := r.status.getD JobStatus.error
    imageUrl := match r.imageUrl with | some u => some u | none => job.imageUrl
    message := match r.message with | some m => some m | none => job.message }

/-- Final status reconciliation, from the finalization block of
`processScreenshotTask` (src/lib/process-task.ts lines 401-445): given the
cancellation-observed flag and the reloaded task, compute the final
status and overall error. -/
def reconcileStatus (wasCancelled : Bool) (t : ScreenshotTask) : TaskStatus × Option String :=
  let finalCompletedCount := (t.jobs.filter (fun j => j.status = JobStatus.completed)).length
  let finalErrorCount := (t.jobs.filter (fun j => j.status = JobStatus.error)).length
  let finalPendingCount := (t.jobs.filter (fun j => j.status = JobStatus.pending)).length
  let finalProcessingCount := (t.jobs.filter (fun j => j.status = JobStatus.processing)).length
  if wasCancelled = true ∨ t.status = TaskStatus.cancelled then
    (TaskStatus.cancelled, some (jsOr t.error "Task cancelled."))
  else if t.status = TaskStatus.error then
    (TaskStatus.error, some (jsOr t.error "Task failed during processing."))
  else if finalPendingCount = 0 ∧ finalProcessingCount = 0 then
    if finalErrorCount = 0 then
      (TaskStatus.completed, none)
    else if 0 < finalCompletedCount then
      (TaskStatus.partially_completed,
        some (jsOr t.error (toString finalErrorCount ++ " job(s) failed.")))
    else
      (TaskStatus.error, some (jsOr t.error "All screenshot jobs failed."))
  else
    (TaskStatus.error,
      some (jsOr t.error ("Task processing stopped unexpectedly with "
        ++ toString (finalPendingCount + finalProcessingCount) ++ " jobs unfinished.")))

/-- Write-back decision at the end of `processScreenshotTask`
(src/lib/process-task.ts lines 447-456): the reconciled status/error is
persisted only when it differs from the stored value; the boolean reports
whether a write happened. -/
def finalizeTask (wasCancelled : Bool) (t : ScreenshotTask) : ScreenshotTask × Bool :=
  let fs := (reconcileStatus wasCancelled t).1
  let fe := (reconcileStatus wasCancelled t).2
  if t.status = fs ∧ t.error = fe then
    (t, false)
  else
    ({ t with status := fs, error := fe }, true)

/-- The cancellation request's read-modify-write, from
src/pages/api/cancel-task.ts: a task that is `pending` or `processing` is
flipped to `cancelling` with a cancellation reason; any other status is left
untouched. -/
def cancelTask (t : ScreenshotTask) : ScreenshotTask :=
  if t.status = TaskStatus.pending ∨ t.status = TaskStatus.processing then
    { t with status := TaskStatus.cancelling, error := some "Task cancelled by user request." }
  else t

/-- A sample processing task with no jobs, used in sanity examples. -/
def sampleEmptyTask : ScreenshotTask where
  taskId := "t"
  status := TaskStatus.processing
  jobs := []
  createdAt := 0
  taskSpecificDir := ""
  error := none

/-- Environment of one Runner invocation: where the single concurrent
cancellation request fires (before the Runner's store operation with that
number, operations counted from 0), the capture backend's outcome for each job
index (the abstraction of `processSingleJob`), and whether the initial
"mark processing" store write fails. -/
structure RunEnv where
  cancelPoint : Option Nat
  capture : Nat → JobResult
  initialSetFails : Bool

/-- Apply the concurrent cancellation to the stored task if it is scheduled to
fire just before the Runner's store operation number `op`. -/
def applyCancel (env : RunEnv) (op : Nat) (t : ScreenshotTask) : ScreenshotTask :=
  if env.cancelPoint = some op then cancelTask t else t

/-- Apply a cancellation that is scheduled after all `ops` store operations the
Runner performed: it hits the store after the Runner has finished. -/
def leftoverCancel (env : RunEnv) (ops : Nat) (t : ScreenshotTask) : ScreenshotTask :=
  match env.cancelPoint with
  | some m => if ops ≤ m then cancelTask t else t
  | none => t

/-- In-flight state of the Runner's job loop: the current store contents, how
many store operations happened so far, the `wasCancelled` flag and the
`completedCount`/`errorCount` counters of `processScreenshotTask`, plus
instrumentation: which job indices the capture backend was invoked for, and the
chronological list of store writes. -/
structure LoopState where
  store : ScreenshotTask
  opCount : Nat
  wasCancelled : Bool
  completedCount : Nat
  errorCount : Nat
  captured : List Nat
  writes : List ScreenshotTask
deriving DecidableEq, Repr

/-- The assignment `task.jobs[jobIndex] = { ...merge... }`: replace the job at
`idx` by its merge with the capture result (no-op when out of range, which the
`findIndex` guard makes unreachable). -/
def setMergedJob (jobs : List ScreenshotJob) (idx : Nat) (r : JobResult) : List ScreenshotJob :=
  match jobs[idx]? with
  | some jb => jobs.set idx (mergeJobResult jb r)
  | none => jobs

/-- The job loop of `processScreenshotTask` (src/lib/process-task.ts lines
236-346) over the remaining job indices.  Each iteration: reload the task
(observing a cancellation that fired before that read), stop if it is
cancelling/cancelled; skip the job unless it is `pending`; write the job as
`processing`; invoke the capture backend; reload again; locate the job by id;
merge the outcome and write it back; stop if the reloaded task became
`cancelling`.  A write scheduled at the same point as a cancellation overwrites
it (the Runner persists the whole record it last read). -/
def runLoop (env : RunEnv) : List Nat → LoopState → LoopState
  | [], st => st
  | i :: rest, st =>
    let fetched := applyCancel env st.opCount st.store
    let st1 : LoopState := { st with store := fetched, opCount := st.opCount + 1 }
    if fetched.status = TaskStatus.cancelling ∨ fetched.status = TaskStatus.cancelled then
      { st1 with wasCancelled := true }
    else
      match fetched.jobs[i]? with
      | none => runLoop env rest { st1 with errorCount := st1.errorCount + 1 }
      | some currentJob =>
        if currentJob.status ≠ JobStatus.pending then
          runLoop env rest st1
        else
          let procTask :=
            { fetched with jobs := fetched.jobs.set i { currentJob with status := JobStatus.processing } }
          let st2 := { st1 with store := procTask, opCount := st1.opCount + 1, writes := st1.writes ++ [procTask] }
          let result := env.capture i
          let st3 := { st2 with captured := st2.captured ++ [i] }
          let fetched2 := applyCancel env st3.opCount st3.store
          let st4 := { st3 with store := fetched2, opCount := st3.opCount + 1 }
          match fetched2.jobs.findIdx? (fun jb => jb.id == currentJob.id) with
          | none => runLoop env rest { st4 with errorCount := st4.errorCount + 1 }
          | some jobIndex =>
            let mergedTask := { fetched2 with jobs := setMergedJob fetched2.jobs jobIndex result }
            let completedCount5 := if result.status = some JobStatus.completed then st4.completedCount + 1 else st4.completedCount
            let errorCount5 := if result.status = some JobStatus.completed then st4.errorCount else st4.errorCount + 1
            let st5 := { st4 with store := mergedTask, opCount := st4.opCount + 1, writes := st4.writes ++ [mergedTask], completedCount := completedCount5, errorCount := errorCount5 }
            if mergedTask.status = TaskStatus.cancelling then
              { st5 with wasCancelled := true }
            else
              runLoop env rest st5

/-- Outcome of one Runner invocation: final store contents (after any
still-pending cancellation lands), the writes the Runner performed, the job
indices it invoked the capture backend for, and whether finalization wrote. -/
structure RunResult where
  store : Option ScreenshotTask
  writes : List ScreenshotTask
  captured : List Nat
  finalWrote : Bool
deriving DecidableEq, Repr

/-- The body of the Runner once the entry guard has passed and the task was
persisted as `processing`: the job loop over all job indices followed by the
finalization reload/reconcile/write of src/lib/process-task.ts lines 392-467.
`t1` is the task as just persisted.  The loop bound is the job-list length,
which is constant: the cancellation write and every Runner write preserve the
job list's length, so re-reading `task.jobs.length` each iteration (as the
source does) always yields the same value. -/
def runnerMain (env : RunEnv) (t1 : ScreenshotTask) : RunResult :=
  let st0 : LoopState :=
    { store := t1, opCount := 2, wasCancelled := false,
      completedCount := 0, errorCount := 0, captured := [], writes := [t1] }
  let stL := runLoop env (List.range t1.jobs.length) st0
  let fetchedF := applyCancel env stL.opCount stL.store
  let fin := finalizeTask stL.wasCancelled fetchedF
  if fin.2 then
    { store := some (leftoverCancel env (stL.opCount + 2) fin.1),
      writes := stL.writes ++ [fin.1], captured := stL.captured, finalWrote := true }
  else
    { store := some (leftoverCancel env (stL.opCount + 1) fetchedF),
      writes := stL.writes, captured := stL.captured, finalWrote := false }

/-- The Task Runner `processScreenshotTask(taskId)` of src/lib/process-task.ts:
initial load and status guard (lines 195-207), the "mark processing" write
(lines 209-221), then `runnerMain`: the job loop and the finalization
reload/reconcile/write (lines 392-467).  The store holds `none` when the task
id is absent. -/
def processScreenshotTask (env : RunEnv) (store0 : Option ScreenshotTask) : RunResult :=
  match store0.map (applyCancel env 0) with
  | none => { store := none, writes := [], captured := [], finalWrote := false }
  | some t0 =>
    if ¬(t0.status = TaskStatus.pending ∨ t0.status = TaskStatus.processing) then
      { store := some (leftoverCancel env 1 t0), writes := [], captured := [], finalWrote := false }
    else
      if env.initialSetFails then
        { store := some (leftoverCancel env 2 (applyCancel env 1 t0)),
          writes := [], captured := [], finalWrote := false }
      else
        runnerMain env { t0 with status := TaskStatus.processing, error := none }

/-- A successful capture outcome used in sanity examples. -/
def sampleOkResult : JobResult where
  status := some JobStatus.completed
  imageUrl := some "/task_screenshots/t/a.png"
  message := none

/-- A single fresh pending job used in sanity examples. -/
def sampleJob : ScreenshotJob where
  id := "t-a-800x600-vp"
  url := "https://a.test"
  dimension := "800x600"
  screenshotType := ScreenshotType.viewport
  status := JobStatus.pending
  waitMs := some 0
  imageUrl := none
  message := none

/-- A fresh one-job pending task used in sanity examples. -/
def sampleTask : ScreenshotTask where
  taskId := "t"
  status := TaskStatus.pending
  jobs := [sampleJob]
  createdAt := 0
  taskSpecificDir := "d"
  error := none

/-- An environment with no cancellation and an always-succeeding backend. -/
def sampleEnv : RunEnv where
  cancelPoint := none
  capture := fun _ => sampleOkResult
  initialSetFails := false

/-- Insertion into a JavaScript `Set` observed through its iteration order:
keep each element the first time it is seen.  `seen` is the set contents so
far.  Models `Array.from(new Set(l))` in src/pages/api/start-task.ts. -/
def dedupFirstAux (seen : List String) : List String → List String
  | [] => []
  | x :: xs =>
    if x ∈ seen then dedupFirstAux seen xs
    else x :: dedupFirstAux (x :: seen) xs

/-- `Array.from(new Set(l))`: deduplication with set semantics, iteration in
order of first occurrence. -/
def dedupFirst (l : List String) : List String :=
  dedupFirstAux [] l

/-- One character of `replace(/[^a-zA-Z0-9-_]/g, '_')` used to build job ids in
src/pages/api/start-task.ts. -/
def sanitizeJobIdChar (c : Char) : Char :=
  if c.isAlphanum ∨ c = '-' ∨ c = '_' then c else '_'

/-- `` `${taskId}-${url}-${dimension}`.replace(/[^a-zA-Z0-9-_]/g, '_') ``. -/
def sanitizeJobId (s : String) : String :=
  String.map sanitizeJobIdChar s

/-- One JavaScript whitespace character, for modelling `String.prototype.trim`. -/
def isJsWhitespace (c : Char) : Bool :=
  c = ' ' ∨ c = '\t' ∨ c = '\n' ∨ c = '\r'

/-- Drop leading whitespace from a character list. -/
def trimLeftChars : List Char → List Char
  | [] => []
  | c :: cs => if isJsWhitespace c then trimLeftChars cs else c :: cs

/-- JavaScript `s.trim()`: strip leading and trailing whitespace. -/
def strTrim (s : String) : String :=
  String.mk (trimLeftChars (trimLeftChars s.data.reverse).reverse)

/-- The per-pair job emission of the Submission Builder
(src/pages/api/start-task.ts lines 48-69): a `viewport` job when the requested
type is `viewport` or `both`, then a `fullPage` job when it is `fullPage` or
`both`. -/
def jobsForPair (taskId url dimension : String) (screenshotType : RequestedScreenshotType)
    (waitMs : Nat) : List ScreenshotJob :=
  let baseJobId := sanitizeJobId (taskId ++ "-" ++ url ++ "-" ++ dimension)
  (if screenshotType = RequestedScreenshotType.viewport ∨ screenshotType = RequestedScreenshotType.both then
    [{ id := baseJobId ++ "-vp", url := strTrim url, dimension := dimension,
       screenshotType := ScreenshotType.viewport, status := JobStatus.pending,
       waitMs := some waitMs, imageUrl := none, message := none }]
  else []) ++
  (if screenshotType = RequestedScreenshotType.fullPage ∨ screenshotType = RequestedScreenshotType.both then
    [{ id := baseJobId ++ "-fp", url := strTrim url, dimension := dimension,
       screenshotType := ScreenshotType.fullPage, status := JobStatus.pending,
       waitMs := some waitMs, imageUrl := none, message := none }]
  else [])

/-- The Submission Builder's job list (src/pages/api/start-task.ts lines
36-71): deduplicate urls and dimensions, then emit jobs over the cross
product. -/
def buildJobs (taskId : String) (urls dimensions : List String)
    (screenshotType : RequestedScreenshotType) (waitMs : Nat) : List ScreenshotJob :=
  let uniqueUrls := dedupFirst urls
  let uniqueDimensions := dedupFirst dimensions
  uniqueUrls.flatMap (fun url =>
    uniqueDimensions.flatMap (fun dimension =>
      jobsForPair taskId url dimension screenshotType waitMs))

/-- The /api/start-task handler after schema validation
(src/pages/api/start-task.ts lines 36-86): build the deduplicated job list;
reject with a 400 error, creating no task, when it is empty; otherwise create
the pending task. -/
def startTaskHandler (taskId : String) (urls dimensions : List String)
    (screenshotType : RequestedScreenshotType) (waitMs : Nat) (now : Nat) :
    Except String ScreenshotTask :=
  let jobs := buildJobs taskId urls dimensions screenshotType waitMs
  if jobs.length = 0 then
    Except.error "No valid screenshot jobs could be generated after deduplication."
  else
    Except.ok { taskId := taskId, status := TaskStatus.pending, jobs := jobs,
                createdAt := now, taskSpecificDir := "public/task_screenshots/" ++ taskId,
                error := none }

/-- Whether a requested screenshot type emits a job of the given mode: `both`
emits both modes, the others only themselves. -/
def modeMatches (screenshotType : RequestedScreenshotType) (m : ScreenshotType) : Prop :=
  match screenshotType, m with
  | RequestedScreenshotType.viewport, ScreenshotType.viewport => True
  | RequestedScreenshotType.fullPage, ScreenshotType.fullPage => True
  | RequestedScreenshotType.both, _ => True
  | _, _ => False

instance (screenshotType : RequestedScreenshotType) (m : ScreenshotType) :
    Decidable (modeMatches screenshotType m) := by
  unfold modeMatches
  cases screenshotType <;> cases m <;> simp <;> infer_instance

/-- The `waitMs` field of `startTaskSchema` (src/types/screenshot.ts):
`z.coerce.number().int().min(0).max(5000).optional().default(0)` — absent means
0, negative or above-5000 values are rejected. -/
def parseWaitMs (w : Option Int) : Except String Nat :=
  match w with
  | none => Except.ok 0
  | some v =>
    if v < 0 then Except.error "Wait time must be 0 or greater"
    else if 5000 < v then Except.error "Wait time cannot exceed 5000ms"
    else Except.ok v.toNat

/-- The settle-delay cap in `processSingleJob` (src/lib/process-task.ts line
142): `Math.min(initialWaitMs || 0, 5000)`. -/
def effectiveWaitMs (job : ScreenshotJob) : Nat :=
  min (job.waitMs.getD 0) 5000

/-- A task status is terminal when no further transition happens: the four
final statuses of the data model. -/
def taskTerminal (s : TaskStatus) : Prop :=
  s = TaskStatus.completed ∨ s = TaskStatus.partially_completed ∨
  s = TaskStatus.error ∨ s = TaskStatus.cancelled

instance (s : TaskStatus) : Decidable (taskTerminal s) := by
  unfold taskTerminal
  infer_instance

/-- C2 counterexample input: a task whose stored status is `error` (set by a
catastrophic failure) although its single job completed. -/
def c2Task : ScreenshotTask where
  taskId := "t"
  status := TaskStatus.error
  jobs := [{ sampleJob with status := JobStatus.completed }]
  createdAt := 0
  taskSpecificDir := "d"
  error := none

/-- C2 witness input: one completed and one errored job, stored status still
`processing`, no stored error. -/
def c2WitnessTask : ScreenshotTask where
  taskId := "t"
  status := TaskStatus.processing
  jobs := [{ sampleJob with status := JobStatus.completed },
           { sampleJob with id := "t-a-800x600-fp", status := JobStatus.error }]
  createdAt := 0
  taskSpecificDir := "d"
  error := none

/-- C7 witness input: a job whose stored wait is 8000 ms, above the ceiling. -/
def c7Job : ScreenshotJob :=
  { sampleJob with waitMs := some 8000 }

/-- C10 witness input: a capture result that carries no status at all. -/
def c10Result : JobResult where
  status := none
  imageUrl := none
  message := some "boom"

/-- The predicate identifying jobs for a given target, dimension and mode. -/
def jobKey (u d : String) (m : ScreenshotType) : ScreenshotJob → Bool :=
  fun j => decide (j.url = u ∧ j.dimension = d ∧ j.screenshotType = m)

/-- C1 counterexample environment: the cancellation request fires before the
Runner's very first task load. -/
def c1Env : RunEnv where
  cancelPoint := some 0
  capture := fun _ => sampleOkResult
  initialSetFails := false

/-- C5 counterexample input: a task stored as `cancelling` — a non-terminal
status. -/
def c5Task : ScreenshotTask :=
  { sampleTask with status := TaskStatus.cancelling }

/-- A sample 2-job resumable task: job 0 already completed, job 1 pending. -/
def c4Task : ScreenshotTask where
  taskId := "t"
  status := TaskStatus.processing
  jobs := [{ sampleJob with status := JobStatus.completed, imageUrl := some "/a.png" },
           { sampleJob with id := "t-a-800x600-fp", screenshotType := ScreenshotType.fullPage }]
  createdAt := 0
  taskSpecificDir := "d"
  error := none

/-- C3 counterexample environment: the cancellation fires between the Runner's
initial load and its "mark processing" write. -/
def c3Env : RunEnv where
  cancelPoint := some 1
  capture := fun _ => sampleOkResult
  initialSetFails := false

/-- A fresh 2-job all-pending task used by the C3 witness. -/
def c3Task : ScreenshotTask where
  taskId := "t"
  status := TaskStatus.pending
  jobs := [sampleJob, { sampleJob with id := "t-a-800x600-fp", screenshotType := ScreenshotType.fullPage }]
  createdAt := 0
  taskSpecificDir := "d"
  error := none

/-- Environment where the cancellation lands exactly at the pre-job check for
job 1 (store operation 6 = 2 + 4·1). -/
def c3WitnessEnv : RunEnv where
  cancelPoint := some 6
  capture := fun _ => sampleOkResult
  initialSetFails := false

example : (reconcileStatus false sampleEmptyTask).1 = TaskStatus.completed := by decide

example : reconcileStatus true sampleEmptyTask
    = (TaskStatus.cancelled, some "Task cancelled.") := by decide

example :
    (processScreenshotTask sampleEnv (some sampleTask)).store.map (fun t => t.status)
      = some TaskStatus.completed := by decide

example : (processScreenshotTask sampleEnv (some sampleTask)).captured = [0] := by decide

example :
    (processScreenshotTask { sampleEnv with cancelPoint := some 0 } (some sampleTask)).store.map
      (fun t => t.status) = some TaskStatus.cancelling := by decide

example :
    (processScreenshotTask { sampleEnv with cancelPoint := some 1 } (some sampleTask)).store.map
      (fun t => t.status) = some TaskStatus.completed := by decide

example :
    (processScreenshotTask { sampleEnv with cancelPoint := some 2 } (some sampleTask)).store.map
      (fun t => t.status) = some TaskStatus.cancelled := by decide

example : (buildJobs "t" ["a", "a", "b"] ["d1", "d1"] RequestedScreenshotType.both 0).length = 4 := by decide

example : dedupFirst ["b", "a", "b", "c"] = ["b", "a", "c"] := by decide

theorem reconcileStatus_fst_terminal (w : Bool) (t : ScreenshotTask) :
    taskTerminal (reconcileStatus w t).1 := by
  unfold reconcileStatus taskTerminal
  dsimp only
  split_ifs <;> simp

theorem cancelTask_of_not_active (t : ScreenshotTask)
    (h : ¬(t.status = TaskStatus.pending ∨ t.status = TaskStatus.processing)) :
    cancelTask t = t := by
  unfold cancelTask
  rw [if_neg h]

theorem cancelTask_of_terminal (t : ScreenshotTask) (h : taskTerminal t.status) :
    cancelTask t = t := by
  apply cancelTask_of_not_active
  rcases h with h | h | h | h <;> simp [h]

theorem leftoverCancel_of_terminal (env : RunEnv) (ops : Nat) (t : ScreenshotTask)
    (h : taskTerminal t.status) : leftoverCancel env ops t = t := by
  rcases hcp : env.cancelPoint with _ | m
  · simp [leftoverCancel, hcp]
  · simp only [leftoverCancel, hcp]
    split_ifs <;> simp [cancelTask_of_terminal t h]

theorem leftoverCancel_none (env : RunEnv) (ops : Nat) (t : ScreenshotTask)
    (h : env.cancelPoint = none) : leftoverCancel env ops t = t := by
  simp [leftoverCancel, h]

theorem leftoverCancel_of_past (env : RunEnv) (ops m : Nat) (t : ScreenshotTask)
    (h : env.cancelPoint = some m) (hm : m < ops) : leftoverCancel env ops t = t := by
  simp only [leftoverCancel, h]
  rw [if_neg (by omega)]

theorem applyCancel_of_ne (env : RunEnv) (op : Nat) (t : ScreenshotTask)
    (h : env.cancelPoint ≠ some op) : applyCancel env op t = t := by
  unfold applyCancel
  rw [if_neg h]

theorem applyCancel_none (env : RunEnv) (op : Nat) (t : ScreenshotTask)
    (h : env.cancelPoint = none) : applyCancel env op t = t := by
  apply applyCancel_of_ne
  rw [h]
  intro hc
  exact Option.noConfusion hc

theorem finalizeTask_fst_status (w : Bool) (t : ScreenshotTask) :
    (finalizeTask w t).1.status = (reconcileStatus w t).1 := by
  unfold finalizeTask
  dsimp only
  split_ifs with h
  · exact h.1
  · rfl

theorem finalizeTask_fst_jobs (w : Bool) (t : ScreenshotTask) :
    (finalizeTask w t).1.jobs = t.jobs := by
  unfold finalizeTask
  dsimp only
  split_ifs <;> rfl

/-- C2: the claim omits the reconciler's stored-`error` branch.  With
cancellation not observed, stored status `error`, and every job `completed`
(all terminal, zero errored), the claim says the result is `completed` with the
error cleared; the code keeps `error` and sets a failure message. -/
theorem c2_reconciler_counterexample :
    c2Task.jobs = [{ sampleJob with status := JobStatus.completed }] ∧
    c2Task.status ≠ TaskStatus.cancelled ∧
    reconcileStatus false c2Task = (TaskStatus.error, some "Task failed during processing.") ∧
    (reconcileStatus false c2Task).1 ≠ TaskStatus.completed := by
  refine ⟨rfl, by decide, by decide, by decide⟩

/-- C2 (amended): the reconciler returns `cancelled` with the error defaulting
to a cancellation message whenever cancellation was observed or the stored
status is `cancelled`; otherwise, when the stored status is not `error` and
every job is terminal, it returns `completed` with the error cleared if zero
jobs errored, `partially_completed` with the error defaulting to a
count-of-failures message if some jobs errored and some completed, and `error`
with the error defaulting to an all-jobs-failed message if all jobs errored. -/
theorem c2_reconciler_amended (wasCancelled : Bool) (t : ScreenshotTask) :
    ((wasCancelled = true ∨ t.status = TaskStatus.cancelled) →
      reconcileStatus wasCancelled t = (TaskStatus.cancelled, some (jsOr t.error "Task cancelled."))) ∧
    (¬(wasCancelled = true ∨ t.status = TaskStatus.cancelled) →
      t.status ≠ TaskStatus.error →
      (∀ jb ∈ t.jobs, jb.status = JobStatus.completed ∨ jb.status = JobStatus.error) →
      (((∀ jb ∈ t.jobs, jb.status ≠ JobStatus.error) →
          reconcileStatus wasCancelled t = (TaskStatus.completed, none)) ∧
        ((∃ jb ∈ t.jobs, jb.status = JobStatus.error) →
          (∃ jb ∈ t.jobs, jb.status = JobStatus.completed) →
          reconcileStatus wasCancelled t =
            (TaskStatus.partially_completed,
              some (jsOr t.error
                (toString (t.jobs.filter (fun j => j.status = JobStatus.error)).length
                  ++ " job(s) failed.")))) ∧
        (t.jobs ≠ [] → (∀ jb ∈ t.jobs, jb.status = JobStatus.error) →
          reconcileStatus wasCancelled t =
            (TaskStatus.error, some (jsOr t.error "All screenshot jobs failed."))))) := by
  constructor
  · intro h
    unfold reconcileStatus
    rw [if_pos h]
  · intro hnc herr hterm
    have hpend : (t.jobs.filter (fun j => j.status = JobStatus.pending)).length = 0 := by
      rw [← List.countP_eq_length_filter, List.countP_eq_zero]
      intro jb hjb
      rcases hterm jb hjb with h | h <;> simp [h]
    have hproc : (t.jobs.filter (fun j => j.status = JobStatus.processing)).length = 0 := by
      rw [← List.countP_eq_length_filter, List.countP_eq_zero]
      intro jb hjb
      rcases hterm jb hjb with h | h <;> simp [h]
    refine ⟨?_, ?_, ?_⟩
    · intro hnoerr
      have herrcnt : (t.jobs.filter (fun j => j.status = JobStatus.error)).length = 0 := by
        rw [← List.countP_eq_length_filter, List.countP_eq_zero]
        intro jb hjb
        simp [hnoerr jb hjb]
      unfold reconcileStatus
      rw [if_neg hnc, if_neg herr, if_pos ⟨hpend, hproc⟩, if_pos herrcnt]
    · intro hexerr hexcomp
      have herrcnt : (t.jobs.filter (fun j => j.status = JobStatus.error)).length ≠ 0 := by
        rw [← List.countP_eq_length_filter]
        rcases hexerr with ⟨jb, hjb, hst⟩
        have : 0 < t.jobs.countP (fun j => decide (j.status = JobStatus.error)) := by
          rw [List.countP_pos_iff]
          exact ⟨jb, hjb, by simp [hst]⟩
        omega
      have hcompcnt : 0 < (t.jobs.filter (fun j => j.status = JobStatus.completed)).length := by
        rw [← List.countP_eq_length_filter, List.countP_pos_iff]
        rcases hexcomp with ⟨jb, hjb, hst⟩
        exact ⟨jb, hjb, by simp [hst]⟩
      unfold reconcileStatus
      rw [if_neg hnc, if_neg herr, if_pos ⟨hpend, hproc⟩, if_neg herrcnt, if_pos hcompcnt]
    · intro hnil hallerr
      · have herrcnt : (t.jobs.filter (fun j => j.status = JobStatus.error)).length ≠ 0 := by
          rw [← List.countP_eq_length_filter]
          rcases List.exists_mem_of_ne_nil t.jobs hnil with ⟨jb, hjb⟩
          have : 0 < t.jobs.countP (fun j => decide (j.status = JobStatus.error)) := by
            rw [List.countP_pos_iff]
            exact ⟨jb, hjb, by simp [hallerr jb hjb]⟩
          omega
        have hcompcnt : ¬(0 < (t.jobs.filter (fun j => j.status = JobStatus.completed)).length) := by
          rw [← List.countP_eq_length_filter]
          intro hpos
          rw [List.countP_pos_iff] at hpos
          rcases hpos with ⟨jb, hjb, hst⟩
          have := hallerr jb hjb
          simp at hst
          rw [this] at hst
          exact JobStatus.noConfusion hst
        unfold reconcileStatus
        rw [if_neg hnc, if_neg herr, if_pos ⟨hpend, hproc⟩, if_neg herrcnt, if_neg hcompcnt]

theorem c2_reconciler_amended_witness :
    reconcileStatus false c2WitnessTask
      = (TaskStatus.partially_completed, some "1 job(s) failed.") :=
  ((c2_reconciler_amended false c2WitnessTask).2 (by decide) (by decide)
    (by decide)).2.1 (by decide) (by decide)

/-- C7: every schema-accepted `waitMs` is at most the 5000 ms ceiling (it is a
`Nat`, hence non-negative), and the settle delay `processSingleJob` applies is
the stored value capped at 5000 regardless of what was stored: it never
exceeds 5000, equals the stored value when that is within the ceiling, and
equals 5000 when the stored value exceeds it. -/
theorem c7_waitms_bounds (w : Option Int) (n : Nat) (job : ScreenshotJob) :
    (parseWaitMs w = Except.ok n → n ≤ 5000) ∧
    effectiveWaitMs job ≤ 5000 ∧
    (job.waitMs.getD 0 ≤ 5000 → effectiveWaitMs job = job.waitMs.getD 0) ∧
    (5000 ≤ job.waitMs.getD 0 → effectiveWaitMs job = 5000) := by
  refine ⟨?_, ?_, ?_, ?_⟩
  · intro h
    rcases w with _ | v
    · simp only [parseWaitMs] at h
      cases h
      omega
    · simp only [parseWaitMs] at h
      split_ifs at h with h1 h2
      cases h
      omega
  · exact min_le_right _ _
  · intro h
    exact min_eq_left h
  · intro h
    exact min_eq_right h

theorem c7_waitms_bounds_witness : effectiveWaitMs c7Job = 5000 :=
  (c7_waitms_bounds (some 3) 3 c7Job).2.2.2 (by decide)

/-- C8: during finalization the Runner writes the task back if and only if the
reconciled status or error differs from the stored value; when it does not
write, the stored task is untouched, and when it writes, only status and error
change, to the reconciled values. -/
theorem c8_writeback_iff (wasCancelled : Bool) (t : ScreenshotTask) :
    ((finalizeTask wasCancelled t).2 = true ↔
      ¬(t.status = (reconcileStatus wasCancelled t).1 ∧
        t.error = (reconcileStatus wasCancelled t).2)) ∧
    ((finalizeTask wasCancelled t).2 = false → (finalizeTask wasCancelled t).1 = t) ∧
    ((finalizeTask wasCancelled t).2 = true →
      (finalizeTask wasCancelled t).1 =
        { t with status := (reconcileStatus wasCancelled t).1,
                 error := (reconcileStatus wasCancelled t).2 }) := by
  unfold finalizeTask
  dsimp only
  split_ifs with h
  · refine ⟨by simp [h], fun _ => rfl, by simp⟩
  · refine ⟨by simp [h], by simp, fun _ => rfl⟩

theorem c8_writeback_iff_witness : (finalizeTask false sampleEmptyTask).2 = true :=
  (c8_writeback_iff false sampleEmptyTask).1.mpr (by decide)

/-- C9 counterexample: with targets `["a","a","b"]`, dimensions `["d1","d1"]`
and mode `both`, the Submission Builder does not produce 2 jobs. -/
theorem c9_dedup_counterexample :
    (buildJobs "t" ["a", "a", "b"] ["d1", "d1"] RequestedScreenshotType.both 0).length ≠ 2 := by
  decide

/-- C9 (amended): the Submission Builder given targets `[a,a,b]` (with `a`,`b`
distinct), dimensions `[d1,d1]` and mode `both` produces exactly 4 jobs
(2 unique targets × 1 unique dimension × 2 modes). -/
theorem c9_dedup_amended (taskId a b d1 : String) (w : Nat) (hab : a ≠ b) :
    (buildJobs taskId [a, a, b] [d1, d1] RequestedScreenshotType.both w).length = 4 := by
  have hba : ¬(b = a ∨ b ∈ ([] : List String)) := by
    simp [Ne.symm hab]
  simp [buildJobs, dedupFirst, dedupFirstAux, hba, jobsForPair, Ne.symm hab]

theorem c9_dedup_amended_witness :
    (buildJobs "t" ["a", "a", "b"] ["d1", "d1"] RequestedScreenshotType.both 0).length = 4 :=
  c9_dedup_amended "t" "a" "b" "d1" 0 (by decide)

/-- C10: the merged job's status is explicitly set to the capture result's
status, defaulting to `error` when the result carries none; since the capture
backend only reports `completed`, `error`, or no status, the merged job is
always terminal (`completed` or `error`), never `pending` or `processing`. -/
theorem c10_merge_terminal (job : ScreenshotJob) (r : JobResult)
    (h : r.status = none ∨ r.status = some JobStatus.completed ∨
      r.status = some JobStatus.error) :
    (mergeJobResult job r).status = r.status.getD JobStatus.error ∧
    ((mergeJobResult job r).status = JobStatus.completed ∨
      (mergeJobResult job r).status = JobStatus.error) ∧
    (mergeJobResult job r).status ≠ JobStatus.pending ∧
    (mergeJobResult job r).status ≠ JobStatus.processing := by
  refine ⟨rfl, ?_, ?_, ?_⟩ <;>
    rcases h with h | h | h <;> simp [mergeJobResult, h]

theorem c10_merge_terminal_witness :
    (mergeJobResult sampleJob c10Result).status = JobStatus.completed ∨
    (mergeJobResult sampleJob c10Result).status = JobStatus.error :=
  (c10_merge_terminal sampleJob c10Result (by decide)).2.1

theorem mem_dedupFirstAux (l : List String) :
    ∀ (seen : List String) (x : String),
      x ∈ dedupFirstAux seen l ↔ x ∈ l ∧ x ∉ seen := by
  induction l with
  | nil => intro seen x; simp [dedupFirstAux]
  | cons y ys ih =>
    intro seen x
    by_cases hy : y ∈ seen
    · rw [dedupFirstAux, if_pos hy, ih]
      constructor
      · rintro ⟨hx, hxs⟩
        exact ⟨List.mem_cons_of_mem _ hx, hxs⟩
      · rintro ⟨hx, hxs⟩
        rcases List.mem_cons.mp hx with rfl | hx
        · exact absurd hy hxs
        · exact ⟨hx, hxs⟩
    · rw [dedupFirstAux, if_neg hy]
      constructor
      · intro hx
        rcases List.mem_cons.mp hx with rfl | hx
        · exact ⟨List.mem_cons_self _ _, hy⟩
        · rcases (ih _ _).mp hx with ⟨hx1, hx2⟩
          refine ⟨List.mem_cons_of_mem _ hx1, ?_⟩
          intro hxs
          exact hx2 (List.mem_cons_of_mem _ hxs)
      · rintro ⟨hx, hxs⟩
        rcases List.mem_cons.mp hx with rfl | hx
        · exact List.mem_cons_self _ _
        · by_cases hxy : x = y
          · subst hxy
            exact List.mem_cons_self _ _
          · refine List.mem_cons_of_mem _ ((ih _ _).mpr ⟨hx, ?_⟩)
            intro hc
            rcases List.mem_cons.mp hc with h | h
            · exact hxy h
            · exact hxs h

theorem dedupFirstAux_nodup (l : List String) :
    ∀ seen : List String, (dedupFirstAux seen l).Nodup := by
  induction l with
  | nil => intro seen; simp [dedupFirstAux]
  | cons y ys ih =>
    intro seen
    by_cases hy : y ∈ seen
    · rw [dedupFirstAux, if_pos hy]
      exact ih seen
    · rw [dedupFirstAux, if_neg hy]
      refine List.nodup_cons.mpr ⟨?_, ih _⟩
      intro hc
      rcases (mem_dedupFirstAux ys _ y).mp hc with ⟨_, hns⟩
      exact hns (List.mem_cons_self _ _)

theorem dedupFirstAux_sublist (l : List String) :
    ∀ seen : List String, (dedupFirstAux seen l).Sublist l := by
  induction l with
  | nil => intro seen; simp [dedupFirstAux]
  | cons y ys ih =>
    intro seen
    by_cases hy : y ∈ seen
    · rw [dedupFirstAux, if_pos hy]
      exact (ih seen).cons y
    · rw [dedupFirstAux, if_neg hy]
      exact (ih _).cons₂ y

theorem dedupFirstAux_pairwise (l : List String) :
    ∀ seen : List String,
      (dedupFirstAux seen l).Pairwise (fun a b => List.indexOf a l < List.indexOf b l) := by
  induction l with
  | nil => intro seen; simp [dedupFirstAux]
  | cons y ys ih =>
    intro seen
    by_cases hy : y ∈ seen
    · rw [dedupFirstAux, if_pos hy]
      refine List.Pairwise.imp_of_mem ?_ (ih seen)
      intro a b ha hb hab
      have hay : a ≠ y := by
        rintro rfl
        exact ((mem_dedupFirstAux ys seen a).mp ha).2 hy
      have hby : b ≠ y := by
        rintro rfl
        exact ((mem_dedupFirstAux ys seen b).mp hb).2 hy
      rw [List.indexOf_cons_ne _ (Ne.symm hay), List.indexOf_cons_ne _ (Ne.symm hby)]
      omega
    · rw [dedupFirstAux, if_neg hy]
      refine List.Pairwise.cons ?_ ?_
      · intro b hb
        have hby : b ≠ y := by
          rintro rfl
          exact ((mem_dedupFirstAux ys _ b).mp hb).2 (List.mem_cons_self _ _)
        rw [List.indexOf_cons_self, List.indexOf_cons_ne _ (Ne.symm hby)]
        omega
      · refine List.Pairwise.imp_of_mem ?_ (ih (y :: seen))
        intro a b ha hb hab
        have hay : a ≠ y := by
          rintro rfl
          exact ((mem_dedupFirstAux ys _ a).mp ha).2 (List.mem_cons_self _ _)
        have hby : b ≠ y := by
          rintro rfl
          exact ((mem_dedupFirstAux ys _ b).mp hb).2 (List.mem_cons_self _ _)
        rw [List.indexOf_cons_ne _ (Ne.symm hay), List.indexOf_cons_ne _ (Ne.symm hby)]
        omega

theorem mem_dedupFirst (l : List String) (x : String) : x ∈ dedupFirst l ↔ x ∈ l := by
  rw [dedupFirst, mem_dedupFirstAux]
  simp

theorem dedupFirst_nodup (l : List String) : (dedupFirst l).Nodup :=
  dedupFirstAux_nodup l []

theorem countP_flatMap {α β : Type} (p : β → Bool) (l : List α) (f : α → List β) :
    (l.flatMap f).countP p = (l.map (fun a => (f a).countP p)).sum := by
  induction l with
  | nil => rfl
  | cons x xs ih => simp [List.flatMap_cons, List.countP_append, ih]

theorem sum_map_ite_mem (l : List String) (hl : l.Nodup) (u : String) (c : Nat) :
    (l.map (fun a => if a = u then c else 0)).sum = if u ∈ l then c else 0 := by
  induction l with
  | nil => simp
  | cons x xs ih =>
    rcases List.nodup_cons.mp hl with ⟨hx, hxs⟩
    by_cases hxu : x = u
    · subst hxu
      rw [List.map_cons, List.sum_cons, if_pos rfl, ih hxs, if_neg hx,
        if_pos (List.mem_cons_self x xs), Nat.add_zero]
    · rw [List.map_cons, List.sum_cons, if_neg hxu, ih hxs, Nat.zero_add]
      by_cases hu : u ∈ xs
      · rw [if_pos hu, if_pos (List.mem_cons_of_mem _ hu)]
      · rw [if_neg hu, if_neg ?hne]
        case hne =>
          intro hc
          rcases List.mem_cons.mp hc with rfl | h
          · exact hxu rfl
          · exact hu h

theorem countP_jobsForPair (tid u' d' : String) (ty : RequestedScreenshotType) (w : Nat)
    (u d : String) (m : ScreenshotType) (hu' : strTrim u' = u') :
    (jobsForPair tid u' d' ty w).countP (jobKey u d m) =
      if u' = u ∧ d' = d ∧ modeMatches ty m then 1 else 0 := by
  by_cases h1 : u' = u
  · subst h1
    by_cases h2 : d' = d
    · subst h2
      cases ty <;> cases m <;>
        simp [jobsForPair, jobKey, modeMatches, hu', List.countP_cons, List.countP_nil]
    · cases ty <;> cases m <;>
        simp [jobsForPair, jobKey, modeMatches, hu', h2, List.countP_cons, List.countP_nil]
  · cases ty <;> cases m <;>
      simp [jobsForPair, jobKey, modeMatches, hu', h1, List.countP_cons, List.countP_nil]

theorem countP_buildJobs (tid : String) (urls dims : List String)
    (ty : RequestedScreenshotType) (w : Nat) (u d : String) (m : ScreenshotType)
    (htrim : ∀ x ∈ urls, strTrim x = x) :
    (buildJobs tid urls dims ty w).countP (jobKey u d m) =
      if u ∈ urls ∧ d ∈ dims ∧ modeMatches ty m then 1 else 0 := by
  unfold buildJobs
  rw [countP_flatMap]
  have houter : ∀ u' ∈ dedupFirst urls,
      ((dedupFirst dims).flatMap (fun d' => jobsForPair tid u' d' ty w)).countP (jobKey u d m)
        = if u' = u ∧ modeMatches ty m then (if d ∈ dims then 1 else 0) else 0 := by
    intro u' hu'
    rw [countP_flatMap]
    have hinner : ∀ d' ∈ dedupFirst dims,
        (jobsForPair tid u' d' ty w).countP (jobKey u d m)
          = if u' = u ∧ d' = d ∧ modeMatches ty m then 1 else 0 := by
      intro d' _
      exact countP_jobsForPair tid u' d' ty w u d m (htrim u' ((mem_dedupFirst urls u').mp hu'))
    rw [List.map_congr_left hinner]
    by_cases hc : u' = u ∧ modeMatches ty m
    · have hfun : ∀ d' ∈ dedupFirst dims,
          (if u' = u ∧ d' = d ∧ modeMatches ty m then 1 else 0)
            = (fun d'' => if d'' = d then 1 else 0) d' := by
        intro d' _
        by_cases hd : d' = d
        · rw [if_pos ⟨hc.1, hd, hc.2⟩]
          simp [hd]
        · rw [if_neg (by tauto)]
          simp [hd]
      rw [List.map_congr_left hfun, sum_map_ite_mem _ (dedupFirst_nodup dims) d 1,
        if_pos hc]
      by_cases hd : d ∈ dims
      · rw [if_pos ((mem_dedupFirst dims d).mpr hd), if_pos hd]
      · rw [if_neg (fun hm => hd ((mem_dedupFirst dims d).mp hm)), if_neg hd]
    · have hfun : ∀ d' ∈ dedupFirst dims,
          (if u' = u ∧ d' = d ∧ modeMatches ty m then 1 else 0) = (fun _ => (0 : Nat)) d' := by
        intro d' _
        rw [if_neg (by tauto)]
      rw [List.map_congr_left hfun, if_neg hc]
      simp
  rw [List.map_congr_left houter]
  by_cases hm : modeMatches ty m
  · have hfun : ∀ u' ∈ dedupFirst urls,
        (if u' = u ∧ modeMatches ty m then (if d ∈ dims then 1 else 0) else 0)
          = (fun u'' => if u'' = u then (if d ∈ dims then 1 else 0) else 0) u' := by
      intro u' _
      by_cases hu : u' = u
      · rw [if_pos ⟨hu, hm⟩]
        simp [hu]
      · rw [if_neg (by tauto)]
        simp [hu]
    rw [List.map_congr_left hfun, sum_map_ite_mem _ (dedupFirst_nodup urls) u _]
    by_cases hu : u ∈ urls <;> by_cases hd : d ∈ dims
    · rw [if_pos ((mem_dedupFirst urls u).mpr hu), if_pos hd, if_pos ⟨hu, hd, hm⟩]
    · rw [if_pos ((mem_dedupFirst urls u).mpr hu), if_neg hd, if_neg (by tauto)]
    · rw [if_neg (fun hc => hu ((mem_dedupFirst urls u).mp hc)), if_neg (by tauto)]
    · rw [if_neg (fun hc => hu ((mem_dedupFirst urls u).mp hc)), if_neg (by tauto)]
  · have hfun : ∀ u' ∈ dedupFirst urls,
        (if u' = u ∧ modeMatches ty m then (if d ∈ dims then 1 else 0) else 0)
          = (fun _ => (0 : Nat)) u' := by
      intro u' _
      rw [if_neg (by tauto)]
    rw [List.map_congr_left hfun, if_neg (by tauto)]
    simp

/-- C6: the Submission Builder deduplicates targets and dimensions with set
semantics in order of first occurrence (the deduplicated list is duplicate
free, an in-order sublist of the input with the same members, sorted by first
occurrence); for trim-clean inputs it emits exactly one job per unique
(target, dimension) pair and matching mode, with `both` matching both modes;
and the handler rejects the submission, creating no task, exactly when the job
list is empty. -/
theorem c6_submission_builder :
    (∀ l : List String, (dedupFirst l).Nodup ∧ (dedupFirst l).Sublist l ∧
      (∀ x, x ∈ dedupFirst l ↔ x ∈ l) ∧
      (dedupFirst l).Pairwise (fun a b => List.indexOf a l < List.indexOf b l)) ∧
    (∀ (tid : String) (urls dims : List String) (ty : RequestedScreenshotType) (w : Nat)
      (u d : String) (m : ScreenshotType), (∀ x ∈ urls, strTrim x = x) →
      (buildJobs tid urls dims ty w).countP (jobKey u d m) =
        if u ∈ urls ∧ d ∈ dims ∧ modeMatches ty m then 1 else 0) ∧
    (∀ (tid : String) (urls dims : List String) (ty : RequestedScreenshotType) (w now : Nat),
      ((∃ e, startTaskHandler tid urls dims ty w now = Except.error e) ↔
        buildJobs tid urls dims ty w = []) ∧
      (∀ t, startTaskHandler tid urls dims ty w now = Except.ok t →
        t.jobs = buildJobs tid urls dims ty w ∧ t.status = TaskStatus.pending)) := by
  refine ⟨?_, ?_, ?_⟩
  · intro l
    exact ⟨dedupFirst_nodup l, dedupFirstAux_sublist l [], fun x => mem_dedupFirst l x,
      dedupFirstAux_pairwise l []⟩
  · intro tid urls dims ty w u d m htrim
    exact countP_buildJobs tid urls dims ty w u d m htrim
  · intro tid urls dims ty w now
    constructor
    · unfold startTaskHandler
      dsimp only
      split_ifs with h
      · simp [List.length_eq_zero.mp h]
      · constructor
        · rintro ⟨e, he⟩
          simp at he
        · intro hc
          rw [hc] at h
          simp at h
    · intro t ht
      simp only [startTaskHandler] at ht
      by_cases h : (buildJobs tid urls dims ty w).length = 0
      · rw [if_pos h] at ht
        exact absurd ht (by simp)
      · rw [if_neg h] at ht
        injection ht with ht2
        exact ⟨by rw [← ht2], by rw [← ht2]⟩

theorem c6_submission_builder_witness :
    (buildJobs "t" ["a", "a", "b"] ["d1"] RequestedScreenshotType.both 0).countP
      (jobKey "a" "d1" ScreenshotType.viewport) = 1 :=
  c6_submission_builder.2.1 "t" ["a", "a", "b"] ["d1"] RequestedScreenshotType.both 0
    "a" "d1" ScreenshotType.viewport (by decide)

theorem finalizeTask_false_status (w : Bool) (t : ScreenshotTask)
    (h : (finalizeTask w t).2 = false) : t.status = (reconcileStatus w t).1 := by
  unfold finalizeTask at h
  dsimp only at h
  split_ifs at h with hc
  · exact hc.1

theorem runLoop_writes_prefix (env : RunEnv) (is : List Nat) :
    ∀ st : LoopState, ∃ ws, (runLoop env is st).writes = st.writes ++ ws := by
  induction is with
  | nil =>
    intro st
    exact ⟨[], by simp [runLoop]⟩
  | cons i rest ih =>
    intro st
    have step : ∀ S : LoopState, (∃ pre, S.writes = st.writes ++ pre) →
        ∃ ws, (runLoop env rest S).writes = st.writes ++ ws := by
      intro S hS
      rcases hS with ⟨pre, hS⟩
      rcases ih S with ⟨ws, hws⟩
      exact ⟨pre ++ ws, by rw [hws, hS, List.append_assoc]⟩
    rw [runLoop]
    split
    · exact ⟨[], by simp⟩
    · split
      · exact step _ ⟨[], by simp⟩
      · split
        · exact step _ ⟨[], by simp⟩
        · dsimp only
          split
          · exact step _ ⟨_, by dsimp only⟩
          · split
            · exact ⟨_, by dsimp only; rw [List.append_assoc]⟩
            · exact step _ ⟨_, by dsimp only; rw [List.append_assoc]⟩

theorem runResult_tail_terminal (env : RunEnv) (w : Bool) (tF : ScreenshotTask) (oc : Nat)
    (W : List ScreenshotTask) (C : List Nat) :
    ∃ tf, (if (finalizeTask w tF).2 then
            ({ store := some (leftoverCancel env (oc + 2) (finalizeTask w tF).1),
               writes := W ++ [(finalizeTask w tF).1], captured := C,
               finalWrote := true } : RunResult)
          else
            { store := some (leftoverCancel env (oc + 1) tF), writes := W, captured := C,
              finalWrote := false }).store = some tf ∧ taskTerminal tf.status := by
  by_cases hw : (finalizeTask w tF).2 = true
  · rw [if_pos hw]
    have ht : taskTerminal (finalizeTask w tF).1.status := by
      rw [finalizeTask_fst_status]
      exact reconcileStatus_fst_terminal _ _
    exact ⟨_, rfl, by rw [leftoverCancel_of_terminal _ _ _ ht]; exact ht⟩
  · rw [if_neg hw]
    have hb : (finalizeTask w tF).2 = false := by
      revert hw
      cases (finalizeTask w tF).2 <;> simp
    have ht : taskTerminal tF.status := by
      rw [finalizeTask_false_status _ _ hb]
      exact reconcileStatus_fst_terminal _ _
    exact ⟨_, rfl, by rw [leftoverCancel_of_terminal _ _ _ ht]; exact ht⟩

/-- C1 counterexample: if the single cancellation request lands before the
Runner's initial load of a fresh pending task, the entry guard (which aborts on
any status other than pending/processing) leaves the task stored as
`cancelling` forever — a non-terminal status. -/
theorem c1_terminality_counterexample :
    (processScreenshotTask c1Env (some sampleTask)).store.map (fun tk => tk.status)
      = some TaskStatus.cancelling ∧
    ¬ taskTerminal TaskStatus.cancelling := by
  exact ⟨by decide, by decide⟩

/-- C1 (amended): for every job list and any interleaving of a single
cancellation request in which the status the Runner reads at its initial load
is not `cancelling` (the request did not land before the first read of an
unstarted task), and with the initial persist succeeding, running the Runner to
completion leaves the stored status in
{completed, partially_completed, error, cancelled}. -/
theorem c1_terminality_amended (env : RunEnv) (t : ScreenshotTask)
    (hset : env.initialSetFails = false)
    (hc : (applyCancel env 0 t).status ≠ TaskStatus.cancelling) :
    ∃ tf, (processScreenshotTask env (some t)).store = some tf ∧ taskTerminal tf.status := by
  unfold processScreenshotTask
  simp only [Option.map_some']
  by_cases hg : (applyCancel env 0 t).status = TaskStatus.pending ∨
      (applyCancel env 0 t).status = TaskStatus.processing
  · rw [if_neg (not_not_intro hg), hset]
    simp only [Bool.false_eq_true, if_false]
    exact runResult_tail_terminal env _ _ _ _ _
  · rw [if_pos hg]
    have ht : taskTerminal (applyCancel env 0 t).status := by
      rcases hs : (applyCancel env 0 t).status
      · exact absurd (Or.inl hs) hg
      · exact absurd (Or.inr hs) hg
      · exact Or.inl rfl
      · exact Or.inr (Or.inr (Or.inl rfl))
      · exact Or.inr (Or.inl rfl)
      · exact absurd hs hc
      · exact Or.inr (Or.inr (Or.inr rfl))
    rw [leftoverCancel_of_terminal _ _ _ ht]
    exact ⟨_, rfl, ht⟩

theorem c1_terminality_amended_witness :
    ∃ tf, (processScreenshotTask sampleEnv (some sampleTask)).store = some tf ∧
      taskTerminal tf.status :=
  c1_terminality_amended sampleEnv sampleTask rfl (by decide)

/-- C5 counterexample: the entry guard aborts on any status other than
pending/processing, not only on terminal statuses.  On a stored `cancelling`
task (non-terminal) the Runner returns without any store write, although the
claim requires it to first persist the task as `processing`. -/
theorem c5_entry_counterexample :
    c5Task.status = TaskStatus.cancelling ∧
    ¬ taskTerminal c5Task.status ∧
    (processScreenshotTask sampleEnv (some c5Task)).store = some c5Task ∧
    (processScreenshotTask sampleEnv (some c5Task)).writes = [] ∧
    (processScreenshotTask sampleEnv (some c5Task)).captured = [] := by
  refine ⟨rfl, by decide, by decide, by decide, by decide⟩

/-- C5 (amended): for every invocation of `run(taskId)` with no concurrent
store writer: if the task is absent the invocation returns with the store
unmodified; if the stored status is anything other than pending or processing
(which includes the non-terminal `cancelling`, not only terminal statuses) it
returns without modifying the store; otherwise its first persisted write is the
task with status `processing` and the previous error cleared; and if that
initial persist fails the run aborts: no job is attempted and the store is
left unmodified. -/
theorem c5_run_entry_amended (env : RunEnv) (t : ScreenshotTask)
    (hcp : env.cancelPoint = none) :
    ((processScreenshotTask env none).store = none ∧
      (processScreenshotTask env none).writes = []) ∧
    (¬(t.status = TaskStatus.pending ∨ t.status = TaskStatus.processing) →
      (processScreenshotTask env (some t)).store = some t ∧
      (processScreenshotTask env (some t)).writes = [] ∧
      (processScreenshotTask env (some t)).captured = []) ∧
    ((t.status = TaskStatus.pending ∨ t.status = TaskStatus.processing) →
      env.initialSetFails = false →
      (processScreenshotTask env (some t)).writes.head? =
        some { t with status := TaskStatus.processing, error := none }) ∧
    ((t.status = TaskStatus.pending ∨ t.status = TaskStatus.processing) →
      env.initialSetFails = true →
      (processScreenshotTask env (some t)).store = some t ∧
      (processScreenshotTask env (some t)).writes = [] ∧
      (processScreenshotTask env (some t)).captured = []) := by
  refine ⟨?_, ?_, ?_, ?_⟩
  · exact ⟨rfl, rfl⟩
  · intro hg
    unfold processScreenshotTask
    simp only [Option.map_some']
    rw [applyCancel_none env 0 t hcp, if_pos hg, leftoverCancel_none env 1 t hcp]
    exact ⟨rfl, rfl, rfl⟩
  · intro hg hset
    unfold processScreenshotTask
    simp only [Option.map_some']
    rw [applyCancel_none env 0 t hcp, if_neg (not_not_intro hg), hset]
    simp only [Bool.false_eq_true, if_false]
    unfold runnerMain
    dsimp only
    split
    · rename_i hw
      dsimp only
      rcases runLoop_writes_prefix env
          (List.range t.jobs.length)
          { store := { t with status := TaskStatus.processing, error := none }, opCount := 2,
            wasCancelled := false, completedCount := 0, errorCount := 0, captured := [],
            writes := [{ t with status := TaskStatus.processing, error := none }] }
        with ⟨ws, hws⟩
      rw [List.head?_append, hws]
      rfl
    · rename_i hw
      dsimp only
      rcases runLoop_writes_prefix env
          (List.range t.jobs.length)
          { store := { t with status := TaskStatus.processing, error := none }, opCount := 2,
            wasCancelled := false, completedCount := 0, errorCount := 0, captured := [],
            writes := [{ t with status := TaskStatus.processing, error := none }] }
        with ⟨ws, hws⟩
      rw [hws]
      rfl
  · intro hg hset
    unfold processScreenshotTask
    simp only [Option.map_some']
    rw [applyCancel_none env 0 t hcp, if_neg (not_not_intro hg), if_pos hset]
    rw [applyCancel_none env 1 t hcp, leftoverCancel_none env 2 t hcp]
    exact ⟨rfl, rfl, rfl⟩

theorem c5_run_entry_amended_witness :
    (processScreenshotTask sampleEnv (some sampleTask)).writes.head? =
      some { sampleTask with status := TaskStatus.processing, error := none } :=
  (c5_run_entry_amended sampleEnv sampleTask rfl).2.2.1 (Or.inl rfl) rfl

theorem runLoop_cons_cancelled (env : RunEnv) (i : Nat) (rest : List Nat) (st : LoopState)
    (h : (applyCancel env st.opCount st.store).status = TaskStatus.cancelling ∨
      (applyCancel env st.opCount st.store).status = TaskStatus.cancelled) :
    runLoop env (i :: rest) st =
      { st with store := applyCancel env st.opCount st.store, opCount := st.opCount + 1,
                wasCancelled := true } := by
  rw [runLoop, if_pos h]

theorem runLoop_cons_skip (env : RunEnv) (i : Nat) (rest : List Nat) (st : LoopState)
    (jb : ScreenshotJob)
    (hnc : env.cancelPoint ≠ some st.opCount)
    (hs : st.store.status = TaskStatus.processing)
    (hj : st.store.jobs[i]? = some jb)
    (hnp : jb.status ≠ JobStatus.pending) :
    runLoop env (i :: rest) st = runLoop env rest { st with opCount := st.opCount + 1 } := by
  rw [runLoop]
  rw [applyCancel_of_ne env st.opCount st.store hnc]
  rw [if_neg (by rw [hs]; rintro (h | h) <;> exact TaskStatus.noConfusion h)]
  rw [hj]
  dsimp only
  rw [if_pos hnp]

theorem findIdx?_id_of_nodup (l : List ScreenshotJob) :
    ∀ (s i : Nat) (x : ScreenshotJob),
      (l.map (fun jb => jb.id)).Nodup → l[i]? = some x →
      List.findIdx? (fun jb => jb.id == x.id) l s = some (s + i) := by
  induction l with
  | nil =>
    intro s i x _ h
    simp at h
  | cons y ys ih =>
    intro s i x hn h
    rcases i with _ | i
    · have hy : y = x := by simpa using h
      subst hy
      rw [List.findIdx?_cons]
      simp
    · have hys : ys[i]? = some x := by simpa using h
      have hxmem : x.id ∈ ys.map (fun jb => jb.id) :=
        List.mem_map_of_mem _ (List.getElem?_mem hys)
      have hyid : y.id ∉ ys.map (fun jb => jb.id) := (List.nodup_cons.mp hn).1
      have hne : (y.id == x.id) = false := by
        rw [beq_eq_false_iff_ne]
        rintro hEq
        rw [hEq] at hyid
        exact hyid hxmem
      rw [List.findIdx?_cons, hne]
      have hn' : (ys.map (fun jb => jb.id)).Nodup := (List.nodup_cons.mp hn).2
      have := ih (s + 1) i x hn' hys
      rw [if_neg (by simp)]
      rw [this]
      congr 1
      omega

theorem set_getElem?_self (l : List ScreenshotJob) :
    ∀ (i : Nat) (a : ScreenshotJob), l[i]? = some a → l.set i a = l := by
  induction l with
  | nil =>
    intro i a h
    simp at h
  | cons y ys ih =>
    intro i a h
    rcases i with _ | i
    · have : y = a := by simpa using h
      subst this
      rfl
    · have : ys[i]? = some a := by simpa using h
      rw [List.set_cons_succ, ih i a this]

theorem map_id_set_same (l : List ScreenshotJob) (i : Nat) (a b : ScreenshotJob)
    (hj : l[i]? = some a) (hid : b.id = a.id) :
    ((l.set i b).map (fun jb => jb.id)) = l.map (fun jb => jb.id) := by
  rw [List.map_set]
  have : (l.map (fun jb => jb.id))[i]? = some b.id := by
    rw [List.getElem?_map, hj]
    simp [hid]
  calc (l.map (fun jb => jb.id)).set i b.id = l.map (fun jb => jb.id) := by
        have hlen : i < (l.map (fun jb => jb.id)).length := by
          rcases List.getElem?_eq_some.mp hj with ⟨hlt, _⟩
          simpa using hlt
        apply List.ext_getElem?
        intro n
        by_cases hni : n = i
        · subst hni
          rw [List.getElem?_set_self hlen, this]
        · rw [List.getElem?_set_ne (by omega)]

theorem runLoop_cons_process (env : RunEnv) (i : Nat) (rest : List Nat) (st : LoopState)
    (jb : ScreenshotJob)
    (hnc0 : env.cancelPoint ≠ some st.opCount)
    (hnc2 : env.cancelPoint ≠ some (st.opCount + 2))
    (hs : st.store.status = TaskStatus.processing)
    (hj : st.store.jobs[i]? = some jb)
    (hp : jb.status = JobStatus.pending)
    (hn : (st.store.jobs.map (fun j => j.id)).Nodup) :
    runLoop env (i :: rest) st = runLoop env rest
      { st with
        store := { st.store with jobs := st.store.jobs.set i (mergeJobResult { jb with status := JobStatus.processing } (env.capture i)) }
        opCount := st.opCount + 4
        completedCount := if (env.capture i).status = some JobStatus.completed then st.completedCount + 1 else st.completedCount
        errorCount := if (env.capture i).status = some JobStatus.completed then st.errorCount else st.errorCount + 1
        captured := st.captured ++ [i]
        writes := st.writes ++ [{ st.store with jobs := st.store.jobs.set i { jb with status := JobStatus.processing } }, { st.store with jobs := st.store.jobs.set i (mergeJobResult { jb with status := JobStatus.processing } (env.capture i)) }] } := by
  have hilen : i < st.store.jobs.length := by
    rcases List.getElem?_eq_some.mp hj with ⟨hlt, _⟩
    exact hlt
  have hj' : (st.store.jobs.set i { jb with status := JobStatus.processing })[i]?
      = some { jb with status := JobStatus.processing } :=
    List.getElem?_set_self (by simpa using hilen)
  have hn' : ((st.store.jobs.set i { jb with status := JobStatus.processing }).map
      (fun j => j.id)).Nodup := by
    rw [map_id_set_same st.store.jobs i jb { jb with status := JobStatus.processing } hj rfl]
    exact hn
  have hfind : List.findIdx?
      (fun jb' => jb'.id == jb.id)
      (st.store.jobs.set i { jb with status := JobStatus.processing }) 0 = some (0 + i) :=
    findIdx?_id_of_nodup (st.store.jobs.set i { jb with status := JobStatus.processing })
      0 i { jb with status := JobStatus.processing } hn' hj'
  rw [Nat.zero_add] at hfind
  rw [runLoop]
  rw [applyCancel_of_ne env st.opCount st.store hnc0]
  rw [if_neg (by rw [hs]; rintro (h | h) <;> exact TaskStatus.noConfusion h)]
  rw [hj]
  try dsimp only
  rw [if_neg (not_not_intro hp)]
  try dsimp only
  rw [applyCancel_of_ne env (st.opCount + 1 + 1) _ hnc2]
  rw [hfind]
  try dsimp only
  rw [if_neg (by simp [hs])]
  rw [setMergedJob, hj']
  try dsimp only
  rw [List.set_set]
  simp [List.append_assoc]

theorem take_set_eq (l : List ScreenshotJob) (i : Nat) (x : ScreenshotJob) :
    (l.set i x).take i = l.take i := by
  apply List.ext_getElem?
  intro n
  rw [List.getElem?_take, List.getElem?_take]
  by_cases hn : n < i
  · rw [if_pos hn, if_pos hn, List.getElem?_set_ne (by omega)]
  · rw [if_neg hn, if_neg hn]

theorem runLoop_skip_phase (env : RunEnv) (rest : List Nat) :
    ∀ (m j : Nat) (st : LoopState),
      (∀ d, d < m → env.cancelPoint ≠ some (st.opCount + d)) →
      st.store.status = TaskStatus.processing →
      (∀ d, d < m → ∃ jb, st.store.jobs[j + d]? = some jb ∧ jb.status ≠ JobStatus.pending) →
      runLoop env (List.range' j m ++ rest) st
        = runLoop env rest { st with opCount := st.opCount + m } := by
  intro m
  induction m with
  | zero =>
    intro j st _ _ _
    rw [List.range'_zero, List.nil_append]
    rfl
  | succ m ih =>
    intro j st hnc hs hskip
    rw [List.range'_succ, List.cons_append]
    rcases hskip 0 (by omega) with ⟨jb, hj, hnp⟩
    rw [Nat.add_zero] at hj
    rw [runLoop_cons_skip env j (List.range' (j + 1) m ++ rest) st jb
      (by have := hnc 0 (by omega); rwa [Nat.add_zero] at this) hs hj hnp]
    rw [ih (j + 1) { st with opCount := st.opCount + 1 } ?hnc2 hs ?hskip2]
    · have harith : st.opCount + 1 + m = st.opCount + (m + 1) := by omega
      rw [harith]
    case hnc2 =>
      intro d hd hcp
      exact hnc (d + 1) (by omega) (hcp.trans (by dsimp only; congr 1; omega))
    case hskip2 =>
      intro d hd
      rcases hskip (d + 1) (by omega) with ⟨jb2, hj2, hnp2⟩
      refine ⟨jb2, ?_, hnp2⟩
      rw [show j + 1 + d = j + (d + 1) by omega]
      exact hj2

theorem runLoop_process_phase (env : RunEnv) (rest : List Nat) (tref : ScreenshotTask) :
    ∀ (m j : Nat) (st : LoopState),
      (∀ d, d < 4 * m → env.cancelPoint ≠ some (st.opCount + d)) →
      st.store.status = TaskStatus.processing →
      st.store.jobs.map (fun jb => jb.id) = tref.jobs.map (fun jb => jb.id) →
      (tref.jobs.map (fun jb => jb.id)).Nodup →
      st.store.jobs.drop j = tref.jobs.drop j →
      j + m ≤ tref.jobs.length →
      (∀ jb ∈ tref.jobs.drop j, jb.status = JobStatus.pending) →
      ∃ st2, runLoop env (List.range' j m ++ rest) st = runLoop env rest st2 ∧
        st2.opCount = st.opCount + 4 * m ∧
        st2.store.status = TaskStatus.processing ∧
        st2.store.jobs.map (fun jb => jb.id) = tref.jobs.map (fun jb => jb.id) ∧
        st2.store.jobs.drop (j + m) = tref.jobs.drop (j + m) ∧
        st2.store.jobs.take j = st.store.jobs.take j ∧
        st2.captured = st.captured ++ List.range' j m ∧
        st2.wasCancelled = st.wasCancelled := by
  intro m
  induction m with
  | zero =>
    intro j st _ hs hids _ hdrop _ _
    refine ⟨st, ?_, by omega, hs, hids, by simpa using hdrop, rfl, by simp, rfl⟩
    rw [List.range'_zero, List.nil_append]
  | succ m ih =>
    intro j st hnc hs hids hnodup hdrop hlen hpend
    have hjlt : j < tref.jobs.length := by omega
    have hjr : tref.jobs[j]? = some (tref.jobs.get ⟨j, hjlt⟩) := by
      rw [List.getElem?_eq_getElem hjlt]
      rfl
    have hj : st.store.jobs[j]? = some (tref.jobs.get ⟨j, hjlt⟩) := by
      have h0 : (st.store.jobs.drop j)[0]? = (tref.jobs.drop j)[0]? := by rw [hdrop]
      rw [List.getElem?_drop, List.getElem?_drop, Nat.add_zero] at h0
      rw [h0]
      exact hjr
    have hpj : (tref.jobs.get ⟨j, hjlt⟩).status = JobStatus.pending := by
      apply hpend
      have : (tref.jobs.drop j)[0]? = some (tref.jobs.get ⟨j, hjlt⟩) := by
        rw [List.getElem?_drop, Nat.add_zero]
        exact hjr
      exact List.getElem?_mem this
    have hnodup' : (st.store.jobs.map (fun j => j.id)).Nodup := by
      rw [hids]
      exact hnodup
    have hnc2 : ∀ d, d < 4 * m → env.cancelPoint ≠ some (st.opCount + 4 + d) := by
      intro d hd hcp
      exact hnc (d + 4) (by omega) (hcp.trans (by congr 1; omega))
    have hids2 : ((st.store.jobs.set j (mergeJobResult { tref.jobs.get ⟨j, hjlt⟩ with status := JobStatus.processing } (env.capture j))).map (fun jb => jb.id)) = tref.jobs.map (fun jb => jb.id) := by
      rw [map_id_set_same st.store.jobs j (tref.jobs.get ⟨j, hjlt⟩) (mergeJobResult { tref.jobs.get ⟨j, hjlt⟩ with status := JobStatus.processing } (env.capture j)) hj rfl]
      exact hids
    have hdrop2 : ((st.store.jobs.set j (mergeJobResult { tref.jobs.get ⟨j, hjlt⟩ with status := JobStatus.processing } (env.capture j))).drop (j + 1)) = tref.jobs.drop (j + 1) := by
      rw [List.drop_set_of_lt _ _ (by omega)]
      rw [← List.drop_drop 1 j, ← List.drop_drop 1 j, hdrop]
    have hpend2 : ∀ jb2 ∈ tref.jobs.drop (j + 1), jb2.status = JobStatus.pending := by
      intro jb2 hjb
      apply hpend
      rw [← List.drop_drop 1 j] at hjb
      exact List.mem_of_mem_drop hjb
    rw [List.range'_succ, List.cons_append]
    rw [runLoop_cons_process env j (List.range' (j + 1) m ++ rest) st
      (tref.jobs.get ⟨j, hjlt⟩)
      (by have := hnc 0 (by omega); rwa [Nat.add_zero] at this)
      (hnc 2 (by omega))
      hs hj hpj hnodup']
    obtain ⟨st2, heq, hoc, hst, hid2, hdr2, htk2, hcap2, hwc2⟩ :=
      ih (j + 1)
        { st with
          store := { st.store with jobs := st.store.jobs.set j (mergeJobResult { tref.jobs.get ⟨j, hjlt⟩ with status := JobStatus.processing } (env.capture j)) }
          opCount := st.opCount + 4
          completedCount := if (env.capture j).status = some JobStatus.completed then st.completedCount + 1 else st.completedCount
          errorCount := if (env.capture j).status = some JobStatus.completed then st.errorCount else st.errorCount + 1
          captured := st.captured ++ [j]
          writes := st.writes ++ [{ st.store with jobs := st.store.jobs.set j { tref.jobs.get ⟨j, hjlt⟩ with status := JobStatus.processing } }, { st.store with jobs := st.store.jobs.set j (mergeJobResult { tref.jobs.get ⟨j, hjlt⟩ with status := JobStatus.processing } (env.capture j)) }] }
        hnc2 hs hids2 hnodup hdrop2 (by omega) hpend2
    refine ⟨st2, heq, by dsimp only at hoc; omega, hst, hid2, ?_, ?_, ?_, ?_⟩
    · rw [show j + (m + 1) = j + 1 + m by omega]
      exact hdr2
    · rw [show st2.store.jobs.take j = (st2.store.jobs.take (j + 1)).take j by
        rw [List.take_take]; congr 1; omega]
      rw [htk2]
      dsimp only
      rw [show ((st.store.jobs.set j (mergeJobResult { tref.jobs.get ⟨j, hjlt⟩ with status := JobStatus.processing } (env.capture j))).take (j + 1)).take j = (st.store.jobs.set j (mergeJobResult { tref.jobs.get ⟨j, hjlt⟩ with status := JobStatus.processing } (env.capture j))).take j by
        rw [List.take_take]; congr 1; omega]
      rw [take_set_eq]
    · rw [hcap2]
      dsimp only
      rw [List.append_assoc, List.singleton_append]
    · rw [hwc2]

theorem processScreenshotTask_active (env : RunEnv) (t : ScreenshotTask)
    (hg : t.status = TaskStatus.pending ∨ t.status = TaskStatus.processing)
    (hset : env.initialSetFails = false)
    (h0 : env.cancelPoint ≠ some 0) :
    processScreenshotTask env (some t)
      = runnerMain env { t with status := TaskStatus.processing, error := none } := by
  unfold processScreenshotTask
  simp only [Option.map_some']
  rw [applyCancel_of_ne env 0 t h0, if_neg (not_not_intro hg), hset]
  simp only [Bool.false_eq_true, if_false]

theorem runnerMain_eq (env : RunEnv) (t1 : ScreenshotTask) (stL : LoopState)
    (hL : runLoop env (List.range t1.jobs.length)
        { store := t1, opCount := 2, wasCancelled := false, completedCount := 0,
          errorCount := 0, captured := [], writes := [t1] } = stL) :
    runnerMain env t1 =
      if (finalizeTask stL.wasCancelled (applyCancel env stL.opCount stL.store)).2 then
        { store := some (leftoverCancel env (stL.opCount + 2) (finalizeTask stL.wasCancelled (applyCancel env stL.opCount stL.store)).1),
          writes := stL.writes ++ [(finalizeTask stL.wasCancelled (applyCancel env stL.opCount stL.store)).1],
          captured := stL.captured, finalWrote := true }
      else
        { store := some (leftoverCancel env (stL.opCount + 1) (applyCancel env stL.opCount stL.store)),
          writes := stL.writes, captured := stL.captured, finalWrote := false } := by
  unfold runnerMain
  dsimp only
  rw [hL]

/-- C4: re-invoking the Runner (with no concurrent cancellation) on a task
whose jobs [0..k) are already terminal and whose remaining jobs are pending
invokes the capture backend exactly for the indices k..n-1 — never for a job
in [0..k) — and the final stored task preserves the first k jobs' recorded
outcomes unchanged. -/
theorem c4_idempotent_resume (env : RunEnv) (t : ScreenshotTask) (k : Nat)
    (hcp : env.cancelPoint = none)
    (hset : env.initialSetFails = false)
    (hstat : t.status = TaskStatus.pending ∨ t.status = TaskStatus.processing)
    (hnodup : (t.jobs.map (fun jb => jb.id)).Nodup)
    (hk : k ≤ t.jobs.length)
    (hterm : ∀ jb ∈ t.jobs.take k, jb.status = JobStatus.completed ∨ jb.status = JobStatus.error)
    (hpend : ∀ jb ∈ t.jobs.drop k, jb.status = JobStatus.pending) :
    (processScreenshotTask env (some t)).captured = List.range' k (t.jobs.length - k) ∧
    (∀ i ∈ (processScreenshotTask env (some t)).captured, k ≤ i) ∧
    ∃ tf, (processScreenshotTask env (some t)).store = some tf ∧
      tf.jobs.take k = t.jobs.take k := by
  have hncAll : ∀ x : Nat, env.cancelPoint ≠ some x := by
    intro x
    rw [hcp]
    intro h
    exact Option.noConfusion h
  have hrun := processScreenshotTask_active env t hstat hset (hncAll 0)
  have hsplit : List.range' 0 k ++ (List.range' k (t.jobs.length - k) ++ [])
      = List.range t.jobs.length := by
    rw [List.append_nil, List.range_eq_range']
    have hap := List.range'_append 0 k (t.jobs.length - k) 1
    norm_num at hap
    rw [hap, show t.jobs.length - k + k = t.jobs.length by omega]
  have hskipphase := runLoop_skip_phase env (List.range' k (t.jobs.length - k) ++ []) k 0
    { store := { t with status := TaskStatus.processing, error := none }, opCount := 2, wasCancelled := false, completedCount := 0, errorCount := 0, captured := [], writes := [{ t with status := TaskStatus.processing, error := none }] }
    (fun d _ => hncAll _) rfl ?hskip0
  case hskip0 =>
    intro d hd
    have hdlt : d < t.jobs.length := by omega
    refine ⟨t.jobs.get ⟨d, hdlt⟩, ?_, ?_⟩
    · rw [Nat.zero_add]
      exact List.getElem?_eq_getElem hdlt
    · have hmem : t.jobs.get ⟨d, hdlt⟩ ∈ t.jobs.take k := by
        have hdtk : (t.jobs.take k)[d]? = some (t.jobs.get ⟨d, hdlt⟩) := by
          rw [List.getElem?_take, if_pos hd]
          exact List.getElem?_eq_getElem hdlt
        exact List.getElem?_mem hdtk
      rcases hterm _ hmem with h | h <;> (rw [h]; intro hcon; exact JobStatus.noConfusion hcon)
  obtain ⟨st2, heq, hoc, hst2, hid2, hdr2, htk2, hcap2, hwc2⟩ :=
    runLoop_process_phase env [] { t with status := TaskStatus.processing, error := none }
      (t.jobs.length - k) k
      { ({ store := { t with status := TaskStatus.processing, error := none }, opCount := 2, wasCancelled := false, completedCount := 0, errorCount := 0, captured := [], writes := [{ t with status := TaskStatus.processing, error := none }] } : LoopState) with opCount := ({ store := { t with status := TaskStatus.processing, error := none }, opCount := 2, wasCancelled := false, completedCount := 0, errorCount := 0, captured := [], writes := [{ t with status := TaskStatus.processing, error := none }] } : LoopState).opCount + k }
      (fun d _ => hncAll _) rfl rfl hnodup rfl (by dsimp only; omega) hpend
  have hL : runLoop env
      (List.range ({ t with status := TaskStatus.processing, error := none } : ScreenshotTask).jobs.length)
      { store := { t with status := TaskStatus.processing, error := none }, opCount := 2, wasCancelled := false, completedCount := 0, errorCount := 0, captured := [], writes := [{ t with status := TaskStatus.processing, error := none }] } = st2 := by
    rw [show List.range ({ t with status := TaskStatus.processing, error := none } : ScreenshotTask).jobs.length = List.range' 0 k ++ (List.range' k (t.jobs.length - k) ++ []) from hsplit.symm]
    rw [hskipphase, heq]
    rfl
  have hfinal := runnerMain_eq env { t with status := TaskStatus.processing, error := none } st2 hL
  rw [hrun, hfinal, applyCancel_none env st2.opCount st2.store hcp]
  have hcapfin : st2.captured = List.range' k (t.jobs.length - k) := by
    rw [hcap2]
    dsimp only
    rw [List.nil_append]
  have htake : st2.store.jobs.take k = t.jobs.take k := by
    rw [htk2]
  split
  · refine ⟨hcapfin, ?_, ?_⟩
    · intro i hi
      rw [hcapfin] at hi
      exact (List.mem_range'_1.mp hi).1
    · rw [leftoverCancel_none env _ _ hcp]
      refine ⟨_, rfl, ?_⟩
      rw [finalizeTask_fst_jobs]
      exact htake
  · refine ⟨hcapfin, ?_, ?_⟩
    · intro i hi
      rw [hcapfin] at hi
      exact (List.mem_range'_1.mp hi).1
    · rw [leftoverCancel_none env _ _ hcp]
      exact ⟨_, rfl, htake⟩

theorem c4_idempotent_resume_witness :
    (processScreenshotTask sampleEnv (some c4Task)).captured = List.range' 1 1 ∧
    (∀ i ∈ (processScreenshotTask sampleEnv (some c4Task)).captured, 1 ≤ i) ∧
    ∃ tf, (processScreenshotTask sampleEnv (some c4Task)).store = some tf ∧
      tf.jobs.take 1 = c4Task.jobs.take 1 :=
  c4_idempotent_resume sampleEnv c4Task 1 rfl rfl (Or.inr rfl) (by decide) (by decide)
    (by decide) (by decide)

theorem reconcileStatus_fst_of_cancelled (t : ScreenshotTask) :
    (reconcileStatus true t).1 = TaskStatus.cancelled := by
  unfold reconcileStatus
  rw [if_pos (Or.inl rfl)]

/-- C3 counterexample: the cancellation request does flip the pending task to
cancelling before job 0 starts (`cancelTask` on the stored pending task yields
cancelling), but the Runner's "mark processing" write blindly overwrites the
store with the record it loaded earlier, erasing the flip; job 0 is attempted
anyway and the final status is completed, not cancelled. -/
theorem c3_cancellation_counterexample :
    (cancelTask sampleTask).status = TaskStatus.cancelling ∧
    (processScreenshotTask c3Env (some sampleTask)).captured = [0] ∧
    (processScreenshotTask c3Env (some sampleTask)).store.map (fun tk => tk.status)
      = some TaskStatus.completed := by
  refine ⟨by decide, by decide, by decide⟩

/-- C3 (amended): on a fresh all-pending task, if the cancellation write is
still visible when the Runner performs its pre-job check for job k (it fires
just before that read, after job k-1's outcome was persisted), then jobs at
index k and beyond are never attempted and remain pending, the final stored
status is cancelled, and no capture at all happens after the observation: the
backend is invoked exactly for indices 0..k-1. -/
theorem c3_cancellation_amended (env : RunEnv) (t : ScreenshotTask) (k : Nat)
    (hcp : env.cancelPoint = some (2 + 4 * k))
    (hset : env.initialSetFails = false)
    (hstat : t.status = TaskStatus.pending)
    (hnodup : (t.jobs.map (fun jb => jb.id)).Nodup)
    (hk : k < t.jobs.length)
    (hpend : ∀ jb ∈ t.jobs, jb.status = JobStatus.pending) :
    (processScreenshotTask env (some t)).captured = List.range k ∧
    (∀ i ∈ (processScreenshotTask env (some t)).captured, i < k) ∧
    ∃ tf, (processScreenshotTask env (some t)).store = some tf ∧
      tf.status = TaskStatus.cancelled ∧
      tf.jobs.drop k = t.jobs.drop k ∧
      (∀ jb ∈ tf.jobs.drop k, jb.status = JobStatus.pending) := by
  have h0 : env.cancelPoint ≠ some 0 := by
    rw [hcp]
    intro h
    have := Option.some.inj h
    omega
  have hrun := processScreenshotTask_active env t (Or.inl hstat) hset h0
  have hsplit : List.range' 0 k ++ (k :: List.range' (k + 1) (t.jobs.length - (k + 1)))
      = List.range t.jobs.length := by
    rw [List.range_eq_range']
    have hone : (k :: List.range' (k + 1) (t.jobs.length - (k + 1)))
        = List.range' k (t.jobs.length - k) := by
      rw [show t.jobs.length - k = (t.jobs.length - (k + 1)) + 1 by omega, List.range'_succ]
    rw [hone]
    have hap := List.range'_append 0 k (t.jobs.length - k) 1
    norm_num at hap
    rw [hap, show t.jobs.length - k + k = t.jobs.length by omega]
  have hnc0 : ∀ d, d < 4 * k → env.cancelPoint ≠ some (({ store := { t with status := TaskStatus.processing, error := none }, opCount := 2, wasCancelled := false, completedCount := 0, errorCount := 0, captured := [], writes := [{ t with status := TaskStatus.processing, error := none }] } : LoopState).opCount + d) := by
    intro d hd hcon
    rw [hcp] at hcon
    have := Option.some.inj hcon
    dsimp only at this
    omega
  obtain ⟨st2, heq, hoc, hst2, hid2, hdr2, htk2, hcap2, hwc2⟩ :=
    runLoop_process_phase env (k :: List.range' (k + 1) (t.jobs.length - (k + 1)))
      { t with status := TaskStatus.processing, error := none } k 0
      { store := { t with status := TaskStatus.processing, error := none }, opCount := 2, wasCancelled := false, completedCount := 0, errorCount := 0, captured := [], writes := [{ t with status := TaskStatus.processing, error := none }] }
      hnc0 rfl rfl hnodup rfl (by dsimp only; omega) (fun jb h => hpend jb h)
  have hoc2 : st2.opCount = 2 + 4 * k := by
    dsimp only at hoc
    omega
  have hac : applyCancel env st2.opCount st2.store = cancelTask st2.store := by
    unfold applyCancel
    rw [if_pos (by rw [hcp, hoc2])]
  have hct : cancelTask st2.store
      = { st2.store with status := TaskStatus.cancelling, error := some "Task cancelled by user request." } := by
    unfold cancelTask
    rw [if_pos (Or.inr hst2)]
  have hbreak := runLoop_cons_cancelled env k (List.range' (k + 1) (t.jobs.length - (k + 1)))
    st2 (by rw [hac, hct]; exact Or.inl rfl)
  rw [hac, hct] at hbreak
  have hL : runLoop env
      (List.range ({ t with status := TaskStatus.processing, error := none } : ScreenshotTask).jobs.length)
      { store := { t with status := TaskStatus.processing, error := none }, opCount := 2, wasCancelled := false, completedCount := 0, errorCount := 0, captured := [], writes := [{ t with status := TaskStatus.processing, error := none }] }
      = { st2 with store := { st2.store with status := TaskStatus.cancelling, error := some "Task cancelled by user request." }, opCount := st2.opCount + 1, wasCancelled := true } := by
    rw [show List.range ({ t with status := TaskStatus.processing, error := none } : ScreenshotTask).jobs.length = List.range' 0 k ++ (k :: List.range' (k + 1) (t.jobs.length - (k + 1))) from hsplit.symm]
    rw [heq, hbreak]
  have hfinal := runnerMain_eq env { t with status := TaskStatus.processing, error := none } _ hL
  rw [hrun, hfinal]
  rw [show applyCancel env ({ st2 with store := { st2.store with status := TaskStatus.cancelling, error := some "Task cancelled by user request." }, opCount := st2.opCount + 1, wasCancelled := true } : LoopState).opCount ({ st2 with store := { st2.store with status := TaskStatus.cancelling, error := some "Task cancelled by user request." }, opCount := st2.opCount + 1, wasCancelled := true } : LoopState).store = ({ st2 with store := { st2.store with status := TaskStatus.cancelling, error := some "Task cancelled by user request." }, opCount := st2.opCount + 1, wasCancelled := true } : LoopState).store from by
    apply applyCancel_of_ne
    rw [hcp]
    intro h
    have := Option.some.inj h
    dsimp only at this
    omega]
  have hcapfin : st2.captured = List.range k := by
    rw [hcap2]
    dsimp only
    rw [List.nil_append, List.range_eq_range']
  have hdropfin : st2.store.jobs.drop k = t.jobs.drop k := by
    rw [show (0 : Nat) + k = k from by omega] at hdr2
    exact hdr2
  split
  · refine ⟨hcapfin, ?_, ?_⟩
    · intro i hi
      rw [hcapfin] at hi
      exact List.mem_range.mp hi
    · rw [leftoverCancel_of_past env _ (2 + 4 * k) _ hcp (by dsimp only; omega)]
      refine ⟨_, rfl, ?_, ?_, ?_⟩
      · rw [finalizeTask_fst_status]
        rw [show ({ st2 with store := { st2.store with status := TaskStatus.cancelling, error := some "Task cancelled by user request." }, opCount := st2.opCount + 1, wasCancelled := true } : LoopState).wasCancelled = true from rfl]
        exact reconcileStatus_fst_of_cancelled _
      · rw [finalizeTask_fst_jobs]
        exact hdropfin
      · rw [finalizeTask_fst_jobs]
        rw [show (({ st2 with store := { st2.store with status := TaskStatus.cancelling, error := some "Task cancelled by user request." }, opCount := st2.opCount + 1, wasCancelled := true } : LoopState).store.jobs) = st2.store.jobs from rfl, hdropfin]
        intro jb hjb
        exact hpend jb (List.mem_of_mem_drop hjb)
  · rename_i hw
    exfalso
    apply hw
    unfold finalizeTask
    try dsimp only
    rw [if_neg ?c]
    case c =>
      intro hcond
      have h1 := hcond.1
      try dsimp only at h1
      rw [reconcileStatus_fst_of_cancelled] at h1
      exact TaskStatus.noConfusion h1

theorem c3_cancellation_amended_witness :
    (processScreenshotTask c3WitnessEnv (some c3Task)).captured = List.range 1 ∧
    (∀ i ∈ (processScreenshotTask c3WitnessEnv (some c3Task)).captured, i < 1) ∧
    ∃ tf, (processScreenshotTask c3WitnessEnv (some c3Task)).store = some tf ∧
      tf.status = TaskStatus.cancelled ∧
      tf.jobs.drop 1 = c3Task.jobs.drop 1 ∧
      (∀ jb ∈ tf.jobs.drop 1, jb.status = JobStatus.pending) :=
  c3_cancellation_amended c3WitnessEnv c3Task 1 rfl rfl rfl (by decide) (by decide) (by decide)
